import Mathlib

/-!
Shallow embedding of the interactive force-directed character-graph engine
(the `CharacterGraph` component): graph-model construction, the per-frame
force-simulation step, the camera transform with wheel zoom, and the pointer /
keyboard interaction handlers.  Numbers are modelled as rationals; the square
root used by the source (`Math.sqrt`) is passed in as an explicit function
`s : ℚ → ℚ`, with `ratSqrt` as a computable instance that is exact on
perfect-square rationals.
-/

set_option allowUnsafeReducibility true in
attribute [semireducible] Rat.add Rat.sub Rat.mul Rat.inv Rat.blt

namespace GutenbergGraph

/-! ### Data model -/

/-- Raw input node, as in the `GraphNode` interface. -/
structure GraphNode where
  id : String
  size : ℚ
  role : String
  description : Option String := none
deriving DecidableEq, Repr

/-- Raw input link, as in the `GraphLink` interface. -/
structure GraphLink where
  source : String
  target : String
  value : ℚ
  type : String
deriving DecidableEq, Repr

/-- Raw graph input, as in the `GraphData` interface. -/
structure GraphData where
  nodes : List GraphNode
  links : List GraphLink
deriving DecidableEq, Repr

/-- A simulation-ready node (the `ProcessedNode` interface): raw fields plus
color, position and velocity. -/
structure ProcessedNode where
  id : String
  size : ℚ
  role : String
  description : Option String := none
  color : String
  x : ℚ
  y : ℚ
  vx : ℚ
  vy : ℚ
deriving DecidableEq, Repr

/-- A resolved link (the `ProcessedLink` interface): endpoint indices into the
node array plus defaulted weight and type. -/
structure ProcessedLink where
  source : ℕ
  target : ℕ
  value : ℚ
  type : String
deriving DecidableEq, Repr

/-- The camera transform. -/
@[ext]
structure Transform where
  scale : ℚ
  translateX : ℚ
  translateY : ℚ
deriving DecidableEq, Repr

/-- The hover target reported to the tooltip UI: nothing, a node (index and
screen point), or a link (endpoint ids, type, screen point). -/
inductive HoverTarget where
  | noHover : HoverTarget
  | nodeHover (i : ℕ) (sx sy : ℚ) : HoverTarget
  | linkHover (source target type : String) (sx sy : ℚ) : HoverTarget
deriving DecidableEq, Repr

/-! ### GraphModel: the data-processing effect -/

/-- The source's `getNodeColor`: role string (lower-cased) to fill color. -/
def getNodeColor (role : String) : String :=
  match role.toLower with
  | "main" => "#ff6b6b"
  | "supporting" => "#4ecdc4"
  | "minor" => "#ffd166"
  | _ => "#6a89cc"

/-- Node construction from the data-processing effect: node `k` is placed at
the viewport center plus jitter drawn from the random stream (draws `2k` and
`2k+1`, matching the two `Math.random()` calls per node), with zero velocity. -/
def buildNodesGo (width height : ℚ) (rand : ℕ → ℚ) : ℕ → List GraphNode → List ProcessedNode
  | _, [] => []
  | k, n :: rest =>
    { id := n.id, size := n.size, role := n.role, description := n.description,
      color := getNodeColor n.role,
      x := width / 2 + (rand (2 * k) - 1 / 2) * 200,
      y := height / 2 + (rand (2 * k + 1) - 1 / 2) * 200,
      vx := 0, vy := 0 } :: buildNodesGo width height rand (k + 1) rest

/-- The node map `graphData.nodes.map(...)` with randomized initial placement. -/
def buildNodes (g : List GraphNode) (width height : ℚ) (rand : ℕ → ℚ) : List ProcessedNode :=
  buildNodesGo width height rand 0 g

/-- The `nodeIndices` map: built by `forEach`/`set` in array order, so for a
duplicated id the later index overwrites the earlier one. -/
def nodeIndex (nodes : List ProcessedNode) (id : String) : Option ℕ :=
  nodes.enum.foldl (fun acc p => if p.2.id = id then some p.1 else acc) none

/-- Resolution of one raw link: `null` (here `none`) when either endpoint id is
absent from the node-index map; otherwise endpoint indices with the falsy
defaults `value || 2` and `type || 'relationship'`. -/
def resolveLink (nodes : List ProcessedNode) (l : GraphLink) : Option ProcessedLink :=
  match nodeIndex nodes l.source, nodeIndex nodes l.target with
  | some s, some t =>
      some { source := s, target := t,
             value := if l.value = 0 then 2 else l.value,
             type := if l.type = "" then "relationship" else l.type }
  | _, _ => none

/-- The link pipeline `graphData.links.map(resolve).filter(≠ null)`. -/
def buildLinks (nodes : List ProcessedNode) (links : List GraphLink) : List ProcessedLink :=
  links.filterMap (resolveLink nodes)

/-- The processed model held in component state. -/
structure ProcessedGraphData where
  nodes : List ProcessedNode
  links : List ProcessedLink
deriving DecidableEq, Repr

/-- The whole data-processing effect body: it rebuilds nodes and links from the
raw graph and the current dimensions alone (it reads no previous model state),
and its dependency array makes it re-run whenever `graphData` or `dimensions`
changes. -/
def processGraphData (g : GraphData) (width height : ℚ) (rand : ℕ → ℚ) : ProcessedGraphData :=
  let nodes := buildNodes g.nodes width height rand
  { nodes := nodes, links := buildLinks nodes g.links }

/-! ### ForceSimulator: `simulateForces` -/

/-- Floor square root on ℕ by bounded search (kernel-evaluable). -/
def natSqrt (n : ℕ) : ℕ :=
  (List.range (n + 1)).foldl (fun acc k => if k * k ≤ n then k else acc) 0

/-- A computable square root on ℚ, exact whenever numerator and denominator are
perfect squares; stands in for `Math.sqrt` at concrete inputs. -/
def ratSqrt (q : ℚ) : ℚ := (natSqrt q.num.toNat : ℚ) / (natSqrt q.den : ℚ)

/-- The distance expression `Math.sqrt(dx*dx + dy*dy) || 1`: the falsy fallback replaces the computed
distance by 1 only when it is exactly 0. -/
def dist0 (s : ℚ → ℚ) (dx dy : ℚ) : ℚ :=
  let d := s (dx * dx + dy * dy)
  if d = 0 then 1 else d

/-- One pairwise repulsion contribution (both velocity components), as in the
inner `j` loop of `simulateForces`. -/
def repulsionV (s : ℚ → ℚ) (nx ny ox oy : ℚ) : ℚ × ℚ :=
  let dx := nx - ox
  let dy := ny - oy
  let d := dist0 s dx dy
  let f := 1000 / (d * d)
  (dx / d * f, dy / d * f)

/-- The `vx` component of one pairwise repulsion contribution. -/
def repulsionVX (s : ℚ → ℚ) (nx ny ox oy : ℚ) : ℚ := (repulsionV s nx ny ox oy).1

/-- The repulsion contribution as the specification words it: the distance is
floored at 1 (`max(distance, 1)`) before every use in the force math.  Kept
for comparison against `repulsionV`, which is translated from the source. -/
def specRepulsionVX (s : ℚ → ℚ) (nx ny ox oy : ℚ) : ℚ :=
  let dx := nx - ox
  let dy := ny - oy
  let d := max (s (dx * dx + dy * dy)) 1
  dx / d * (1000 / (d * d))

/-- Centering plus the full repulsion inner loop for the node at index `i`:
`vx += (width/2 − x) * 0.005`, then for every other node `j ≠ i` one
inverse-square repulsion contribution.  Positions are read, never written, in
this phase, so reading them from the pre-phase list is faithful to the
in-place loop. -/
def crNode (s : ℚ → ℚ) (w h : ℚ) (all : List ProcessedNode) (i : ℕ) (n : ProcessedNode) :
    ProcessedNode :=
  let n1 := { n with vx := n.vx + (w / 2 - n.x) * (1 / 200),
                     vy := n.vy + (h / 2 - n.y) * (1 / 200) }
  all.enum.foldl (fun acc p =>
    if p.1 = i then acc
    else
      let r := repulsionV s acc.x acc.y p.2.x p.2.y
      { acc with vx := acc.vx + r.1, vy := acc.vy + r.2 }) n1

/-- Index-aware map over the node list (the `for (let i ...)` loops). -/
def idxMapGo (f : ℕ → ProcessedNode → ProcessedNode) :
    ℕ → List ProcessedNode → List ProcessedNode
  | _, [] => []
  | i, n :: rest => f i n :: idxMapGo f (i + 1) rest

/-- First loop of `simulateForces`: centering and repulsion for every node,
skipping the dragged node. -/
def applyCenterRepulsion (s : ℚ → ℚ) (w h : ℚ) (drag : Option ℕ)
    (nodes : List ProcessedNode) : List ProcessedNode :=
  idxMapGo (fun i n => if drag = some i then n else crNode s w h nodes i n) 0 nodes

/-- One iteration of the link (spring) loop of `simulateForces`: skip when an
endpoint index is out of range; otherwise add the spring contribution to the
source (unless dragged) and subtract it from the target (unless dragged). -/
def applySpring (s : ℚ → ℚ) (drag : Option ℕ) (nodes : List ProcessedNode)
    (l : ProcessedLink) : List ProcessedNode :=
  if nodes.length ≤ l.source ∨ nodes.length ≤ l.target then nodes
  else
    match nodes.get? l.source, nodes.get? l.target with
    | some src, some tgt =>
      let dx := tgt.x - src.x
      let dy := tgt.y - src.y
      let d := dist0 s dx dy
      let f := (d - 100) * (3 / 100) * min l.value 10
      let nodes1 :=
        if drag = some l.source then nodes
        else nodes.set l.source
          { src with vx := src.vx + dx / d * f, vy := src.vy + dy / d * f }
      if drag = some l.target then nodes1
      else
        match nodes1.get? l.target with
        | some tgt1 => nodes1.set l.target
            { tgt1 with vx := tgt1.vx - dx / d * f, vy := tgt1.vy - dy / d * f }
        | none => nodes1
    | _, _ => nodes

/-- Third loop of `simulateForces` for one node: integrate position, damp
velocity by 0.9, clamp position into `[20, width−20] × [20, height−20]`. -/
def integNode (w h : ℚ) (n : ProcessedNode) : ProcessedNode :=
  let x1 := n.x + n.vx
  let y1 := n.y + n.vy
  { n with x := max 20 (min (w - 20) x1),
           y := max 20 (min (h - 20) y1),
           vx := n.vx * (9 / 10), vy := n.vy * (9 / 10) }

/-- Third loop of `simulateForces`: integration and clamping for every node,
skipping the dragged node. -/
def integrate (w h : ℚ) (drag : Option ℕ) (nodes : List ProcessedNode) :
    List ProcessedNode :=
  idxMapGo (fun i n => if drag = some i then n else integNode w h n) 0 nodes

/-- One full `simulateForces` tick on the node list. -/
def simStep (s : ℚ → ℚ) (w h : ℚ) (links : List ProcessedLink) (drag : Option ℕ)
    (nodes : List ProcessedNode) : List ProcessedNode :=
  integrate w h drag (links.foldl (applySpring s drag) (applyCenterRepulsion s w h drag nodes))

/-- A sequence of ticks, one per entry of `drags` (the dragged-node value seen
by each tick). -/
def simSteps (s : ℚ → ℚ) (w h : ℚ) (links : List ProcessedLink)
    (drags : List (Option ℕ)) (nodes : List ProcessedNode) : List ProcessedNode :=
  drags.foldl (fun ns d => simStep s w h links d ns) nodes

/-! ### CameraTransform: wheel zoom and coordinate conversion -/

/-- The source's `screenToGraph`: screen point to world point. -/
def toWorld (t : Transform) (sx sy : ℚ) : ℚ × ℚ :=
  ((sx - t.translateX) / t.scale, (sy - t.translateY) / t.scale)

/-- The zoom update of `handleWheel` for a general multiplier `delta`:
reject (no-op) when the new scale leaves `[0.1, 10]`, otherwise rescale and
recompute translate anchored at the focal screen point. -/
def zoomAt (t : Transform) (fx fy delta : ℚ) : Transform :=
  let newScale := t.scale * delta
  if newScale < 1 / 10 ∨ 10 < newScale then t
  else
    { scale := newScale,
      translateX := t.translateX + (1 - delta) * (fx - t.translateX),
      translateY := t.translateY + (1 - delta) * (fy - t.translateY) }

/-- The source's `handleWheel`: multiplier 1.1 when `deltaY < 0`, else 0.9, anchored at the
cursor position. -/
def handleWheel (t : Transform) (mouseX mouseY deltaY : ℚ) : Transform :=
  zoomAt t mouseX mouseY (if deltaY < 0 then 11 / 10 else 9 / 10)

/-! ### InteractionController: hit-testing and event handlers -/

/-- Circle containment against one node (`distance < size/2 + 4`), in world
coordinates; used both for hover and for starting a drag. -/
def nodeHit (s : ℚ → ℚ) (x y : ℚ) (n : ProcessedNode) : Bool :=
  let dx := n.x - x
  let dy := n.y - y
  s (dx * dx + dy * dy) < n.size / 2 + 4

/-- Closest point of the segment `src–tgt` to `(x, y)` (the `param` clamp of
the link hover loop). -/
def linkClosest (src tgt : ProcessedNode) (x y : ℚ) : ℚ × ℚ :=
  let a := x - src.x
  let b := y - src.y
  let c := tgt.x - src.x
  let d := tgt.y - src.y
  let dot := a * c + b * d
  let lenSq := c * c + d * d
  let param := if lenSq ≠ 0 then dot / lenSq else -1
  if param < 0 then (src.x, src.y)
  else if 1 < param then (tgt.x, tgt.y)
  else (src.x + param * c, src.y + param * d)

/-- Point-to-segment test against one link, detection radius `5 / scale`;
links with an out-of-range endpoint are skipped (`continue`). -/
def linkHit (s : ℚ → ℚ) (scale : ℚ) (nodes : List ProcessedNode) (x y : ℚ)
    (l : ProcessedLink) : Bool :=
  match nodes.get? l.source, nodes.get? l.target with
  | some src, some tgt =>
    let c := linkClosest src tgt x y
    let dx := x - c.1
    let dy := y - c.2
    s (dx * dx + dy * dy) < 5 / scale
  | _, _ => false

/-- The idle-hover hit test of `handleMouseMove`: first node (in array order)
whose circle contains the world point wins; only when no node matches is the
link loop consulted, first matching link wins; otherwise no hover. -/
def hitTest (s : ℚ → ℚ) (t : Transform) (nodes : List ProcessedNode)
    (links : List ProcessedLink) (sx sy : ℚ) : HoverTarget :=
  let x := (sx - t.translateX) / t.scale
  let y := (sy - t.translateY) / t.scale
  match List.findIdx? (nodeHit s x y) nodes with
  | some i =>
    match nodes.get? i with
    | some n => .nodeHover i (n.x * t.scale + t.translateX) (n.y * t.scale + t.translateY)
    | none => .noHover
  | none =>
    match links.find? (linkHit s t.scale nodes x y) with
    | some l =>
      match nodes.get? l.source, nodes.get? l.target with
      | some src, some tgt =>
          .linkHover src.id tgt.id l.type
            ((src.x + tgt.x) / 2 * t.scale + t.translateX)
            ((src.y + tgt.y) / 2 * t.scale + t.translateY)
      | _, _ => .noHover
    | none => .noHover

/-- The mutable interaction state of the component (graph model, drag, pan,
camera, tooltip). -/
structure EngineState where
  nodes : List ProcessedNode
  links : List ProcessedLink
  isDragging : Bool
  dragNode : Option ℕ
  isPanning : Bool
  lastMouseX : ℚ
  lastMouseY : ℚ
  transform : Transform
  tooltip : HoverTarget
deriving DecidableEq, Repr

/-- A pointer / wheel / keyboard input event, with canvas-relative screen
coordinates. -/
inductive InputEvent where
  | mouseDown (buttons : ℕ) (altKey : Bool) (sx sy : ℚ)
  | mouseUp
  | mouseMove (sx sy : ℚ)
  | wheel (sx sy deltaY : ℚ)
  | keyDown (key : String)
  | keyUp (key : String)
deriving DecidableEq, Repr

/-- The drag branch of `handleMouseMove`: set the dragged node's position to
the world point and zero its velocity (no clamping). -/
def dragMoveNodes (nodes : List ProcessedNode) (i : ℕ) (wx wy : ℚ) :
    List ProcessedNode :=
  match nodes.get? i with
  | some n => nodes.set i { n with x := wx, y := wy, vx := 0, vy := 0 }
  | none => nodes

/-- The source's `handleMouseMove`: pan takes priority, then drag, else hover hit-testing. -/
def handleMouseMoveE (s : ℚ → ℚ) (st : EngineState) (sx sy : ℚ) : EngineState :=
  if st.isPanning then
    { st with
      transform := { st.transform with
        translateX := st.transform.translateX + (sx - st.lastMouseX),
        translateY := st.transform.translateY + (sy - st.lastMouseY) },
      lastMouseX := sx, lastMouseY := sy }
  else
    let x := (sx - st.transform.translateX) / st.transform.scale
    let y := (sy - st.transform.translateY) / st.transform.scale
    if st.isDragging then
      match st.dragNode with
      | some i => { st with nodes := dragMoveNodes st.nodes i x y }
      | none => { st with tooltip := hitTest s st.transform st.nodes st.links sx sy }
    else
      { st with tooltip := hitTest s st.transform st.nodes st.links sx sy }

/-- The source's `handleMouseDown`: middle button or primary+modifier starts panning;
otherwise the first node containing the world point starts a drag. -/
def handleMouseDownE (s : ℚ → ℚ) (st : EngineState) (buttons : ℕ) (altKey : Bool)
    (sx sy : ℚ) : EngineState :=
  if buttons = 4 ∨ (buttons = 1 ∧ altKey = true) then
    { st with isPanning := true, lastMouseX := sx, lastMouseY := sy }
  else
    let x := (sx - st.transform.translateX) / st.transform.scale
    let y := (sy - st.transform.translateY) / st.transform.scale
    match List.findIdx? (nodeHit s x y) st.nodes with
    | some i => { st with isDragging := true, dragNode := some i }
    | none => st

/-- The source's `handleMouseUp`: release ends drag and pan. -/
def handleMouseUpE (st : EngineState) : EngineState :=
  { st with isDragging := false, dragNode := none, isPanning := false }

/-- The source's `handleKeyDown`: `r`/`R` resets the camera; an `Alt` keydown while not
panning starts panning anchored at the canvas center. -/
def handleKeyDownE (st : EngineState) (w h : ℚ) (key : String) : EngineState :=
  let st1 :=
    if key = "r" ∨ key = "R" then
      { st with transform := { scale := 1, translateX := 0, translateY := 0 } }
    else st
  if key = "Alt" ∧ st.isPanning = false then
    { st1 with isPanning := true, lastMouseX := w / 2, lastMouseY := h / 2 }
  else st1

/-- The source's `handleKeyUp`: releasing `Alt` ends panning. -/
def handleKeyUpE (st : EngineState) (key : String) : EngineState :=
  if key = "Alt" then { st with isPanning := false } else st

/-- One interaction step: dispatch an input event to its handler. -/
def engineStep (s : ℚ → ℚ) (w h : ℚ) (st : EngineState) (e : InputEvent) : EngineState :=
  match e with
  | .mouseDown b a sx sy => handleMouseDownE s st b a sx sy
  | .mouseUp => handleMouseUpE st
  | .mouseMove sx sy => handleMouseMoveE s st sx sy
  | .wheel sx sy dy => { st with transform := handleWheel st.transform sx sy dy }
  | .keyDown k => handleKeyDownE st w h k
  | .keyUp k => handleKeyUpE st k

/-! ### Concrete instances used by witnesses and counterexamples -/

/-- A constant random stream: every draw is `1/2` (zero jitter). -/
def halfRand : ℕ → ℚ := fun _ => 1 / 2

def nodeA : GraphNode := { id := "A", size := 10, role := "main" }

def nodeB : GraphNode := { id := "B", size := 10, role := "minor" }

def demoRawNodes : List GraphNode := [nodeA, nodeB]

def demoNodes : List ProcessedNode := buildNodes demoRawNodes 800 600 halfRand

def demoRaws : List GraphLink :=
  [{ source := "A", target := "B", value := 5, type := "Friend" },
   { source := "A", target := "Z", value := 1, type := "Enemy" }]

def demoLink : ProcessedLink := { source := 0, target := 1, value := 5, type := "Friend" }

/-- A centered node in a 800×600 viewport; fixed by one tick. -/
def pA : ProcessedNode :=
  { id := "A", size := 10, role := "main", color := "#ff6b6b",
    x := 400, y := 300, vx := 0, vy := 0 }

def pB : ProcessedNode :=
  { id := "B", size := 10, role := "minor", color := "#ffd166",
    x := 500, y := 300, vx := 0, vy := 0 }

/-- A node at `x = 5` in a width-10 viewport. -/
def pTiny : ProcessedNode :=
  { id := "T", size := 10, role := "main", color := "#ff6b6b",
    x := 5, y := 300, vx := 0, vy := 0 }

def idT : Transform := { scale := 1, translateX := 0, translateY := 0 }

/-- Hit-test demo: node at the origin. -/
def hA : ProcessedNode :=
  { id := "A", size := 10, role := "main", color := "#ff6b6b",
    x := 0, y := 0, vx := 0, vy := 0 }

/-- Hit-test demo: node at `(100, 0)`. -/
def hB : ProcessedNode :=
  { id := "B", size := 10, role := "minor", color := "#ffd166",
    x := 100, y := 0, vx := 0, vy := 0 }

/-- An idle interaction state over the two-node demo graph. -/
def idleSt : EngineState :=
  { nodes := [hA, hB], links := [demoLink], isDragging := false, dragNode := none,
    isPanning := false, lastMouseX := 0, lastMouseY := 0, transform := idT,
    tooltip := .noHover }

/-- A state in which node 0 is being dragged. -/
def dragSt : EngineState :=
  { nodes := [hA, hB], links := [demoLink], isDragging := true, dragNode := some 0,
    isPanning := false, lastMouseX := 0, lastMouseY := 0, transform := idT,
    tooltip := .noHover }

/-! ### Lemmas about the model build -/

lemma nodeIndex_go_lt {nodes : List ProcessedNode} {id : String} {i : ℕ}
    (l : List (ℕ × ProcessedNode)) (acc : Option ℕ)
    (hacc : ∀ j, acc = some j → j < nodes.length)
    (hl : ∀ p ∈ l, p.1 < nodes.length)
    (h : l.foldl (fun acc p => if p.2.id = id then some p.1 else acc) acc = some i) :
    i < nodes.length := by
  induction l generalizing acc with
  | nil => exact hacc i h
  | cons p rest ih =>
    have hacc' : ∀ j, (if p.2.id = id then some p.1 else acc) = some j → j < nodes.length := by
      intro j hj
      by_cases hp : p.2.id = id
      · simp [hp] at hj
        exact hj ▸ hl p (List.mem_cons_self _ _)
      · simp [hp] at hj
        exact hacc j hj
    exact ih _ hacc' (fun q hq => hl q (List.mem_cons_of_mem _ hq)) h

lemma nodeIndex_lt {nodes : List ProcessedNode} {id : String} {i : ℕ}
    (h : nodeIndex nodes id = some i) : i < nodes.length := by
  refine nodeIndex_go_lt nodes.enum none (by simp) ?_ h
  intro p hp
  have := List.fst_lt_of_mem_enum hp
  simpa using this

lemma resolveLink_isSome_iff (nodes : List ProcessedNode) (l : GraphLink) :
    (resolveLink nodes l).isSome ↔
      (nodeIndex nodes l.source).isSome ∧ (nodeIndex nodes l.target).isSome := by
  unfold resolveLink
  cases hs : nodeIndex nodes l.source <;> cases ht : nodeIndex nodes l.target <;> simp

lemma resolveLink_indices {nodes : List ProcessedNode} {r : GraphLink} {l : ProcessedLink}
    (h : resolveLink nodes r = some l) :
    nodeIndex nodes r.source = some l.source ∧ nodeIndex nodes r.target = some l.target := by
  unfold resolveLink at h
  cases hs : nodeIndex nodes r.source <;> cases ht : nodeIndex nodes r.target <;>
    rw [hs, ht] at h <;> simp at h
  exact ⟨by rw [← h], by rw [← h]⟩

/-! ### Lemmas about the simulation step -/

lemma idxMapGo_get? (f : ℕ → ProcessedNode → ProcessedNode) (k j : ℕ)
    (l : List ProcessedNode) :
    (idxMapGo f k l).get? j = (l.get? j).map (f (k + j)) := by
  induction l generalizing k j with
  | nil => simp [idxMapGo]
  | cons n rest ih =>
    cases j with
    | zero => simp [idxMapGo]
    | succ j =>
      simp only [idxMapGo, List.get?_cons_succ, ih (k + 1) j]
      ring_nf

lemma applyCenterRepulsion_get?_drag (s : ℚ → ℚ) (w h : ℚ) (i : ℕ)
    (nodes : List ProcessedNode) :
    (applyCenterRepulsion s w h (some i) nodes).get? i = nodes.get? i := by
  rw [applyCenterRepulsion, idxMapGo_get?]
  cases nodes.get? i <;> simp

lemma applySpring_get?_drag (s : ℚ → ℚ) (i : ℕ) (nodes : List ProcessedNode)
    (l : ProcessedLink) :
    (applySpring s (some i) nodes l).get? i = nodes.get? i := by
  unfold applySpring
  by_cases hg : nodes.length ≤ l.source ∨ nodes.length ≤ l.target
  · rw [if_pos hg]
  · rw [if_neg hg]
    cases hs : nodes.get? l.source with
    | none => cases ht : nodes.get? l.target <;> rfl
    | some src =>
      cases ht : nodes.get? l.target with
      | none => rfl
      | some tgt =>
        dsimp only
        by_cases h1 : (some i : Option ℕ) = some l.source
        · rw [if_pos h1]
          by_cases h2 : (some i : Option ℕ) = some l.target
          · rw [if_pos h2]
          · rw [if_neg h2]
            have htgt_ne : l.target ≠ i := fun he => h2 (by rw [he])
            split
            · rw [List.get?_set_ne _ _ htgt_ne]
            · rfl
        · rw [if_neg h1]
          have hsrc_ne : l.source ≠ i := fun he => h1 (by rw [he])
          by_cases h2 : (some i : Option ℕ) = some l.target
          · rw [if_pos h2]
            exact List.get?_set_ne _ nodes hsrc_ne
          · rw [if_neg h2]
            have htgt_ne : l.target ≠ i := fun he => h2 (by rw [he])
            split
            · rw [List.get?_set_ne _ _ htgt_ne, List.get?_set_ne _ _ hsrc_ne]
            · exact List.get?_set_ne _ nodes hsrc_ne

lemma foldl_applySpring_get?_drag (s : ℚ → ℚ) (i : ℕ) (links : List ProcessedLink)
    (nodes : List ProcessedNode) :
    (links.foldl (applySpring s (some i)) nodes).get? i = nodes.get? i := by
  induction links generalizing nodes with
  | nil => rfl
  | cons l rest ih => rw [List.foldl_cons, ih, applySpring_get?_drag]

lemma integrate_get?_drag (w h : ℚ) (i : ℕ) (nodes : List ProcessedNode) :
    (integrate w h (some i) nodes).get? i = nodes.get? i := by
  rw [integrate, idxMapGo_get?]
  cases nodes.get? i <;> simp

lemma simStep_get?_drag (s : ℚ → ℚ) (w h : ℚ) (links : List ProcessedLink) (i : ℕ)
    (nodes : List ProcessedNode) :
    (simStep s w h links (some i) nodes).get? i = nodes.get? i := by
  rw [simStep, integrate_get?_drag, foldl_applySpring_get?_drag,
    applyCenterRepulsion_get?_drag]

lemma simSteps_get?_pinned (s : ℚ → ℚ) (w h : ℚ) (links : List ProcessedLink) (i : ℕ)
    (drags : List (Option ℕ)) (nodes : List ProcessedNode)
    (hds : ∀ d ∈ drags, d = some i) :
    (simSteps s w h links drags nodes).get? i = nodes.get? i := by
  induction drags generalizing nodes with
  | nil => rfl
  | cons d rest ih =>
    rw [simSteps, List.foldl_cons, hds d (List.mem_cons_self _ _)]
    rw [show List.foldl (fun ns d => simStep s w h links d ns)
          (simStep s w h links (some i) nodes) rest
        = simSteps s w h links rest (simStep s w h links (some i) nodes) from rfl]
    rw [ih _ (fun d hd => hds d (List.mem_cons_of_mem _ hd)), simStep_get?_drag]

lemma integNode_mem_box {w h : ℚ} (hw : 40 ≤ w) (hh : 40 ≤ h) (n : ProcessedNode) :
    20 ≤ (integNode w h n).x ∧ (integNode w h n).x ≤ w - 20 ∧
    20 ≤ (integNode w h n).y ∧ (integNode w h n).y ≤ h - 20 := by
  refine ⟨le_max_left _ _, max_le (by linarith) (min_le_left _ _),
          le_max_left _ _, max_le (by linarith) (min_le_left _ _)⟩

lemma simStep_get?_unpinned_box {s : ℚ → ℚ} {w h : ℚ} {links : List ProcessedLink}
    {d : Option ℕ} {nodes : List ProcessedNode} {i : ℕ} {n : ProcessedNode}
    (hw : 40 ≤ w) (hh : 40 ≤ h) (hd : d ≠ some i)
    (hn : (simStep s w h links d nodes).get? i = some n) :
    20 ≤ n.x ∧ n.x ≤ w - 20 ∧ 20 ≤ n.y ∧ n.y ≤ h - 20 := by
  rw [simStep, integrate, idxMapGo_get?] at hn
  set mid := links.foldl (applySpring s d) (applyCenterRepulsion s w h d nodes) with hmid
  cases hm : mid.get? i with
  | none => rw [hm] at hn; simp at hn
  | some m =>
    rw [hm] at hn
    simp [hd] at hn
    exact hn ▸ integNode_mem_box hw hh m

/-! ### Lemmas about first-match search -/

lemma findIdx?_start_spec {α : Type} (p : α → Bool) (l : List α) :
    ∀ (k i : ℕ), List.findIdx? p l k = some i →
      ∃ j, i = k + j ∧ (∃ a, l.get? j = some a ∧ p a = true) ∧
        ∀ m b, m < j → l.get? m = some b → p b = false := by
  induction l with
  | nil => intro k i h; simp [List.findIdx?] at h
  | cons x xs ih =>
    intro k i h
    rw [List.findIdx?_cons] at h
    by_cases hp : p x = true
    · rw [if_pos hp] at h
      have : k = i := by injection h
      exact ⟨0, by omega, ⟨x, rfl, hp⟩, fun m b hm => absurd hm (Nat.not_lt_zero m)⟩
    · rw [if_neg hp] at h
      obtain ⟨j, rfl, ⟨a, ha, hpa⟩, hmin⟩ := ih (k + 1) i h
      refine ⟨j + 1, by omega, ⟨a, by simpa using ha, hpa⟩, ?_⟩
      intro m b hm hb
      cases m with
      | zero =>
        simp at hb
        exact hb ▸ (by simpa using hp)
      | succ m => exact hmin m b (by omega) (by simpa using hb)

lemma findIdx?_spec {α : Type} {p : α → Bool} {l : List α} {i : ℕ}
    (h : List.findIdx? p l = some i) :
    (∃ a, l.get? i = some a ∧ p a = true) ∧
      ∀ m b, m < i → l.get? m = some b → p b = false := by
  obtain ⟨j, hj, hex, hmin⟩ := findIdx?_start_spec p l 0 i h
  have : i = j := by omega
  exact this ▸ ⟨hex, hmin⟩

lemma findIdx?_isSome_of_mem {α : Type} {p : α → Bool} {l : List α} {a : α}
    (ha : a ∈ l) (hp : p a = true) : (List.findIdx? p l).isSome := by
  cases hf : List.findIdx? p l with
  | some i => rfl
  | none =>
    rw [List.findIdx?_eq_none_iff] at hf
    rw [hf a ha] at hp
    exact absurd hp (by simp)

/-! ### Lemmas about the interaction handlers -/

lemma handleMouseMoveE_isPanning (s : ℚ → ℚ) (st : EngineState) (sx sy : ℚ) :
    (handleMouseMoveE s st sx sy).isPanning = st.isPanning := by
  simp only [handleMouseMoveE]
  split
  · rfl
  · split
    · split <;> rfl
    · rfl

/-! ### Claim theorems -/

/-- C1: the built model drops exactly those links whose source or target id is
absent from the node-id map, each independently of the others; every remaining
link has both endpoint indices in `[0, nodes.length)`; and the node list is
unaffected by the raw link list. -/
theorem buildLinks_drops_unresolved_only (nodes : List ProcessedNode)
    (raws : List GraphLink) :
    (∀ l ∈ buildLinks nodes raws, l.source < nodes.length ∧ l.target < nodes.length) ∧
    (∀ r : GraphLink, buildLinks nodes [r] = [] ↔
      nodeIndex nodes r.source = none ∨ nodeIndex nodes r.target = none) ∧
    (∀ a b : List GraphLink,
      buildLinks nodes (a ++ b) = buildLinks nodes a ++ buildLinks nodes b) ∧
    (∀ (ns : List GraphNode) (ls ls' : List GraphLink) (w h : ℚ) (rand : ℕ → ℚ),
      (processGraphData ⟨ns, ls⟩ w h rand).nodes = (processGraphData ⟨ns, ls'⟩ w h rand).nodes) := by
  refine ⟨?_, ?_, ?_, ?_⟩
  · intro l hl
    obtain ⟨r, _, hres⟩ := List.mem_filterMap.mp hl
    obtain ⟨h1, h2⟩ := resolveLink_indices hres
    exact ⟨nodeIndex_lt h1, nodeIndex_lt h2⟩
  · intro r
    have hiff := resolveLink_isSome_iff nodes r
    cases hres : resolveLink nodes r with
    | none =>
      rw [hres] at hiff
      simp only [Option.isSome_none, Bool.false_eq_true, false_iff] at hiff
      constructor
      · intro _
        rcases Option.eq_none_or_eq_some (nodeIndex nodes r.source) with hs | ⟨s, hs⟩
        · exact Or.inl hs
        · rcases Option.eq_none_or_eq_some (nodeIndex nodes r.target) with ht | ⟨t, ht⟩
          · exact Or.inr ht
          · exact absurd ⟨by simp [hs], by simp [ht]⟩ hiff
      · intro _
        simp [buildLinks, List.filterMap, hres]
    | some pl =>
      rw [hres] at hiff
      simp only [Option.isSome_some, true_iff] at hiff
      constructor
      · intro hnil
        simp [buildLinks, List.filterMap, hres] at hnil
      · intro habs
        rcases habs with hs | ht
        · rw [hs] at hiff; simp at hiff
        · rw [ht] at hiff; simp at hiff
  · intro a b
    simp [buildLinks, List.filterMap_append]
  · intro ns ls ls' w h rand
    rfl

/-- C1 witness: in the two-node demo graph, the `A→B` link resolves to indices
`(0, 1)` within bounds, and the `A→Z` link (absent target) is dropped. -/
theorem buildLinks_drops_unresolved_only_witness :
    buildLinks demoNodes demoRaws = [demoLink] ∧
    demoLink.source < demoNodes.length ∧ demoLink.target < demoNodes.length ∧
    buildLinks demoNodes [{ source := "A", target := "Z", value := 1, type := "Enemy" }] = [] := by
  have h := buildLinks_drops_unresolved_only demoNodes demoRaws
  have hmem : buildLinks demoNodes demoRaws = [demoLink] := by decide
  have hb := h.1 demoLink (by rw [hmem]; exact List.mem_singleton_self _)
  exact ⟨hmem, hb.1, hb.2, (h.2.1 _).mpr (Or.inr (by decide))⟩

/-- C2 counterexample: at inter-node distance 1/2 (a distance the square root
computes exactly), the repulsion contribution used by the tick is `4000`, not
the `500` demanded by flooring the distance at 1 before use; the code's
`|| 1` fallback fires only at exactly zero distance. -/
theorem repulsion_not_floored_below_one_cex :
    ratSqrt ((1 / 2 - 0) * (1 / 2 - 0) + (0 - 0) * (0 - 0)) = 1 / 2 ∧
    repulsionVX ratSqrt (1 / 2) 0 0 0 = 4000 ∧
    specRepulsionVX ratSqrt (1 / 2) 0 0 0 = 500 ∧
    repulsionVX ratSqrt (1 / 2) 0 0 0 ≠ specRepulsionVX ratSqrt (1 / 2) 0 0 0 := by
  decide

/-- C2 amended: the per-pair repulsion contribution the tick adds to an
unpinned node's velocity is `unit(Δ) × 1000/d²` with `d` the computed
distance whenever that distance is nonzero, and the distance is replaced by 1
only when it computes to exactly 0 (coincidence), giving `Δ × 1000`. -/
theorem repulsion_floor_only_at_zero (s : ℚ → ℚ) (w h : ℚ) (a b : ProcessedNode) :
    (crNode s w h [a, b] 0 a).vx
      = a.vx + (w / 2 - a.x) * (1 / 200) + repulsionVX s a.x a.y b.x b.y ∧
    (∀ nx ny ox oy, s ((nx - ox) * (nx - ox) + (ny - oy) * (ny - oy)) = 0 →
      repulsionVX s nx ny ox oy = (nx - ox) * 1000) ∧
    (∀ nx ny ox oy dd, s ((nx - ox) * (nx - ox) + (ny - oy) * (ny - oy)) = dd → dd ≠ 0 →
      repulsionVX s nx ny ox oy = (nx - ox) / dd * (1000 / (dd * dd))) := by
  refine ⟨?_, ?_, ?_⟩
  · simp [crNode, repulsionVX, List.enum, List.enumFrom]
  · intro nx ny ox oy h0
    simp [repulsionVX, repulsionV, dist0, h0]
  · intro nx ny ox oy dd hset hd
    simp [repulsionVX, repulsionV, dist0, hset, hd]

/-- C2 witness: the tick equation at the concrete pair `pA`, `pB`, and the
nonzero-distance formula at distance 3 (computed exactly by `ratSqrt`). -/
theorem repulsion_floor_only_at_zero_witness :
    (crNode ratSqrt 800 600 [pA, pB] 0 pA).vx
      = pA.vx + (800 / 2 - pA.x) * (1 / 200) + repulsionVX ratSqrt pA.x pA.y pB.x pB.y ∧
    repulsionVX ratSqrt 3 0 0 0 = (3 - 0) / 3 * (1000 / (3 * 3)) := by
  have h := repulsion_floor_only_at_zero ratSqrt 800 600 pA pB
  exact ⟨h.1, h.2.2 3 0 0 0 3 (by decide) (by decide)⟩

/-- C3 counterexample: in a width-10 viewport (the claim puts no lower bound on
the dimensions), one tick of an unpinned node at `x = 5` clamps it to `x = 20`,
which does not lie in the then-empty band `[20, width − 20] = [20, −10]`. -/
theorem clamp_box_small_viewport_cex :
    (simSteps ratSqrt 10 600 [] [none] [pTiny]).get? 0 = some { pTiny with x := 20 } ∧
    ¬ ((20 : ℚ) ≤ 10 - 20) := by
  constructor
  · decide
  · decide

/-- C3 amended: provided the viewport is at least 40×40, after any `n ≥ 1`
ticks (a non-empty drag history `ds ++ [d]`) every node that was unpinned in
the final tick has its position inside `[20, width−20] × [20, height−20]`. -/
theorem simSteps_clamped_in_box (s : ℚ → ℚ) (w h : ℚ) (links : List ProcessedLink)
    (ds : List (Option ℕ)) (d : Option ℕ) (nodes : List ProcessedNode) (i : ℕ)
    (n : ProcessedNode) (hw : 40 ≤ w) (hh : 40 ≤ h) (hd : d ≠ some i)
    (hn : (simSteps s w h links (ds ++ [d]) nodes).get? i = some n) :
    20 ≤ n.x ∧ n.x ≤ w - 20 ∧ 20 ≤ n.y ∧ n.y ≤ h - 20 := by
  rw [simSteps, List.foldl_append, List.foldl_cons, List.foldl_nil] at hn
  exact simStep_get?_unpinned_box hw hh hd hn

/-- C3 witness: one tick of the centered node `pA` in an 800×600 viewport
leaves it at `(400, 300)`, inside the clamp box. -/
theorem simSteps_clamped_in_box_witness :
    20 ≤ pA.x ∧ pA.x ≤ 800 - 20 ∧ 20 ≤ pA.y ∧ pA.y ≤ 600 - 20 :=
  simSteps_clamped_in_box ratSqrt 800 600 [] [] none [pA] 0 pA (by norm_num)
    (by norm_num) (by simp) (by decide)

/-- C7: while a node stays pinned (every tick of the run sees it as the drag
node), any number of simulation ticks leaves its whole record — position and
velocity — unchanged. -/
theorem simSteps_pinned_fixed (s : ℚ → ℚ) (w h : ℚ) (links : List ProcessedLink)
    (i : ℕ) (drags : List (Option ℕ)) (nodes : List ProcessedNode)
    (hds : ∀ d ∈ drags, d = some i) :
    (simSteps s w h links drags nodes).get? i = nodes.get? i :=
  simSteps_get?_pinned s w h links i drags nodes hds

/-- C7 witness: two ticks with node 0 pinned over the two-node, one-link demo
graph leave node 0 exactly `pA`. -/
theorem simSteps_pinned_fixed_witness :
    (simSteps ratSqrt 800 600 [demoLink] [some 0, some 0] [pA, pB]).get? 0
      = [pA, pB].get? 0 ∧
    (simSteps ratSqrt 800 600 [demoLink] [some 0, some 0] [pA, pB]).get? 0 = some pA := by
  have h := simSteps_pinned_fixed ratSqrt 800 600 [demoLink] 0 [some 0, some 0]
    [pA, pB] (by decide)
  exact ⟨h, by rw [h]; rfl⟩

/-- C5 counterexample: a zoom-out wheel event (`deltaY = 1`) multiplies the
scale by `0.9`, which is not `1/1.1`. -/
theorem wheel_zoom_out_factor_cex :
    (handleWheel idT 0 0 1).scale = 9 / 10 ∧ ((9 : ℚ) / 10) ≠ 1 / (11 / 10) := by
  constructor <;> decide

/-- C5 amended: the wheel multiplier is exactly 1.1 for `deltaY < 0` and
exactly 0.9 (not `1/1.1`) for `deltaY ≥ 0`, and an accepted zoom recomputes
translate anchored at the cursor's screen position. -/
theorem handleWheel_factors (t : Transform) (mx my dy : ℚ) :
    (dy < 0 → handleWheel t mx my dy = zoomAt t mx my (11 / 10)) ∧
    (0 ≤ dy → handleWheel t mx my dy = zoomAt t mx my (9 / 10)) ∧
    (∀ delta : ℚ, ¬(t.scale * delta < 1 / 10 ∨ 10 < t.scale * delta) →
      zoomAt t mx my delta =
        { scale := t.scale * delta,
          translateX := t.translateX + (1 - delta) * (mx - t.translateX),
          translateY := t.translateY + (1 - delta) * (my - t.translateY) }) := by
  refine ⟨?_, ?_, ?_⟩
  · intro hdy
    rw [handleWheel, if_pos hdy]
  · intro hdy
    rw [handleWheel, if_neg (not_lt.mpr hdy)]
  · intro delta hacc
    simp only [zoomAt]
    rw [if_neg hacc]

/-- C5 witness: the two wheel directions and the anchored translate update at
the identity transform. -/
theorem handleWheel_factors_witness :
    handleWheel idT 5 6 (-1) = zoomAt idT 5 6 (11 / 10) ∧
    handleWheel idT 5 6 1 = zoomAt idT 5 6 (9 / 10) ∧
    zoomAt idT 5 6 (9 / 10) =
      { scale := idT.scale * (9 / 10),
        translateX := idT.translateX + (1 - 9 / 10) * (5 - idT.translateX),
        translateY := idT.translateY + (1 - 9 / 10) * (6 - idT.translateY) } :=
  ⟨(handleWheel_factors idT 5 6 (-1)).1 (by norm_num),
   (handleWheel_factors idT 5 6 1).2.1 (by norm_num),
   (handleWheel_factors idT 5 6 1).2.2 (9 / 10) (by decide)⟩

/-- C6: for an in-range transform, an accepted zoom by factor `f` anchored at
`p` followed by an accepted zoom by `1/f` at the same `p` restores the
transform exactly, and each accepted zoom keeps the world point under `p`
invariant. -/
theorem zoomAt_invertible (t : Transform) (px py f : ℚ)
    (hs1 : 1 / 10 ≤ t.scale) (hs2 : t.scale ≤ 10)
    (h1 : ¬(t.scale * f < 1 / 10 ∨ 10 < t.scale * f))
    (h2 : ¬((zoomAt t px py f).scale * (1 / f) < 1 / 10 ∨
            10 < (zoomAt t px py f).scale * (1 / f))) :
    zoomAt (zoomAt t px py f) px py (1 / f) = t ∧
    toWorld (zoomAt t px py f) px py = toWorld t px py := by
  have hsf : 1 / 10 ≤ t.scale * f := le_of_not_lt fun hlt => h1 (Or.inl hlt)
  have hspos : 0 < t.scale := by linarith
  have hsfpos : 0 < t.scale * f := by linarith
  have hf : 0 < f := by nlinarith
  have hE : zoomAt t px py f =
      ⟨t.scale * f, t.translateX + (1 - f) * (px - t.translateX),
       t.translateY + (1 - f) * (py - t.translateY)⟩ := by
    simp only [zoomAt]
    rw [if_neg h1]
  rw [hE] at h2
  constructor
  · rw [hE]
    simp only [zoomAt]
    rw [if_neg h2]
    refine Transform.ext ?_ ?_ ?_
    · field_simp
    · field_simp
      ring
    · field_simp
      ring
  · rw [hE]
    simp only [toWorld, Prod.mk.injEq]
    constructor
    · field_simp
      ring
    · field_simp
      ring

/-- C6 witness: zoom in by 2 at `(3,4)` from `{scale 1, translate (10,20)}`,
then out by `1/2` at the same point. -/
theorem zoomAt_invertible_witness :
    zoomAt (zoomAt ⟨1, 10, 20⟩ 3 4 2) 3 4 (1 / 2) = (⟨1, 10, 20⟩ : Transform) ∧
    toWorld (zoomAt ⟨1, 10, 20⟩ 3 4 2) 3 4 = toWorld (⟨1, 10, 20⟩ : Transform) 3 4 :=
  zoomAt_invertible ⟨1, 10, 20⟩ 3 4 2 (by norm_num) (by norm_num) (by decide) (by decide)

/-- C8: when the world point under the cursor is inside some node's hit circle,
the hover target is the first matching node in array order (every earlier node
misses), and a link hover is reported only when no node matches. -/
theorem hitTest_node_precedence (s : ℚ → ℚ) (t : Transform) (nodes : List ProcessedNode)
    (links : List ProcessedLink) (sx sy : ℚ) :
    ((∃ n ∈ nodes, nodeHit s ((sx - t.translateX) / t.scale)
        ((sy - t.translateY) / t.scale) n = true) →
      ∃ i a, List.findIdx? (nodeHit s ((sx - t.translateX) / t.scale)
          ((sy - t.translateY) / t.scale)) nodes = some i ∧
        nodes.get? i = some a ∧
        nodeHit s ((sx - t.translateX) / t.scale) ((sy - t.translateY) / t.scale) a = true ∧
        (∀ j b, j < i → nodes.get? j = some b →
          nodeHit s ((sx - t.translateX) / t.scale) ((sy - t.translateY) / t.scale) b = false) ∧
        hitTest s t nodes links sx sy =
          .nodeHover i (a.x * t.scale + t.translateX) (a.y * t.scale + t.translateY)) ∧
    (∀ src tgt ty px py, hitTest s t nodes links sx sy = .linkHover src tgt ty px py →
      ∀ n ∈ nodes, nodeHit s ((sx - t.translateX) / t.scale)
        ((sy - t.translateY) / t.scale) n = false) := by
  constructor
  · rintro ⟨n, hn, hhit⟩
    have hsome := findIdx?_isSome_of_mem hn hhit
    obtain ⟨i, hi⟩ := Option.isSome_iff_exists.mp hsome
    obtain ⟨⟨a, ha, hpa⟩, hmin⟩ := findIdx?_spec hi
    refine ⟨i, a, hi, ha, hpa, hmin, ?_⟩
    simp only [hitTest, hi, ha]
  · intro src tgt ty px py hres
    cases hf : List.findIdx? (nodeHit s ((sx - t.translateX) / t.scale)
        ((sy - t.translateY) / t.scale)) nodes with
    | some i =>
      exfalso
      simp only [hitTest, hf] at hres
      cases hg : nodes.get? i with
      | some a =>
        simp only [hg] at hres
        exact HoverTarget.noConfusion hres
      | none =>
        simp only [hg] at hres
        exact HoverTarget.noConfusion hres
    | none =>
      intro n hn
      exact List.findIdx?_eq_none_iff.mp hf n hn

/-- C8 witness: at screen point `(3, 4)` over the two-node demo graph, both the
origin node (distance 5 < 9) and the `0–1` link (distance 4 < 5) are hit, and
the reported hover is the node, not the link. -/
theorem hitTest_node_precedence_witness :
    (∃ i a, List.findIdx? (nodeHit ratSqrt ((3 - idT.translateX) / idT.scale)
        ((4 - idT.translateY) / idT.scale)) [hA, hB] = some i ∧
      [hA, hB].get? i = some a ∧
      nodeHit ratSqrt ((3 - idT.translateX) / idT.scale)
        ((4 - idT.translateY) / idT.scale) a = true ∧
      (∀ j b, j < i → [hA, hB].get? j = some b →
        nodeHit ratSqrt ((3 - idT.translateX) / idT.scale)
          ((4 - idT.translateY) / idT.scale) b = false) ∧
      hitTest ratSqrt idT [hA, hB] [demoLink] 3 4 =
        .nodeHover i (a.x * idT.scale + idT.translateX) (a.y * idT.scale + idT.translateY)) ∧
    linkHit ratSqrt idT.scale [hA, hB] ((3 - idT.translateX) / idT.scale)
      ((4 - idT.translateY) / idT.scale) demoLink = true ∧
    hitTest ratSqrt idT [hA, hB] [demoLink] 3 4 =
      .nodeHover 0 (hA.x * idT.scale + idT.translateX) (hA.y * idT.scale + idT.translateY) :=
  ⟨(hitTest_node_precedence ratSqrt idT [hA, hB] [demoLink] 3 4).1
      ⟨hA, List.mem_cons_self _ _, by decide⟩,
   by decide, by decide⟩

/-- C9 counterexample: a bare `Alt` keydown in the idle state enters the
panning state, so panning is reachable from idle by a keyboard-only event. -/
theorem alt_keydown_enters_panning_cex :
    idleSt.isPanning = false ∧
    (engineStep ratSqrt 800 600 idleSt (.keyDown "Alt")).isPanning = true := by
  constructor <;> decide

/-- C9 amended: from a non-panning state, an input event enters panning exactly
when it is a middle-button press, a primary-button press with the modifier
held, or an `Alt` keydown. -/
theorem panning_entry_characterization (s : ℚ → ℚ) (w h : ℚ) (st : EngineState)
    (e : InputEvent) (hp : st.isPanning = false) :
    (engineStep s w h st e).isPanning = true ↔
      (∃ b a sx sy, e = .mouseDown b a sx sy ∧ (b = 4 ∨ (b = 1 ∧ a = true))) ∨
      e = .keyDown "Alt" := by
  cases e with
  | mouseDown b a sx sy =>
    simp only [engineStep, handleMouseDownE]
    by_cases hc : b = 4 ∨ (b = 1 ∧ a = true)
    · rw [if_pos hc]
      exact iff_of_true rfl (Or.inl ⟨b, a, sx, sy, rfl, hc⟩)
    · rw [if_neg hc]
      refine iff_of_false ?_ ?_
      · split <;> simp [hp]
      · rintro (⟨b', a', sx', sy', heq, hcond⟩ | heq)
        · cases heq
          exact hc hcond
        · simp at heq
  | mouseUp =>
    simp only [engineStep, handleMouseUpE]
    refine iff_of_false (by simp) ?_
    rintro (⟨b', a', sx', sy', heq, _⟩ | heq) <;> simp at heq
  | mouseMove sx sy =>
    rw [show engineStep s w h st (.mouseMove sx sy) = handleMouseMoveE s st sx sy from rfl,
      handleMouseMoveE_isPanning]
    refine iff_of_false (by simp [hp]) ?_
    rintro (⟨b', a', sx', sy', heq, _⟩ | heq) <;> simp at heq
  | wheel sx sy dy =>
    simp only [engineStep]
    refine iff_of_false (by simp [hp]) ?_
    rintro (⟨b', a', sx', sy', heq, _⟩ | heq) <;> simp at heq
  | keyDown k =>
    simp only [engineStep, handleKeyDownE]
    by_cases hk : k = "Alt"
    · rw [if_pos ⟨hk, hp⟩]
      exact iff_of_true rfl (Or.inr (by rw [hk]))
    · rw [if_neg fun hand => hk hand.1]
      refine iff_of_false ?_ ?_
      · split <;> simp [hp]
      · rintro (⟨b', a', sx', sy', heq, _⟩ | heq)
        · simp at heq
        · exact hk (by injection heq)
  | keyUp k =>
    simp only [engineStep, handleKeyUpE]
    refine iff_of_false ?_ ?_
    · split <;> simp [hp]
    · rintro (⟨b', a', sx', sy', heq, _⟩ | heq) <;> simp at heq

/-- C9 witness: a middle-button press from the idle state enters panning, as
characterized. -/
theorem panning_entry_characterization_witness :
    ((engineStep ratSqrt 800 600 idleSt (.mouseDown 4 false 0 0)).isPanning = true ↔
      (∃ b a sx sy, (InputEvent.mouseDown 4 false 0 0) = .mouseDown b a sx sy ∧
        (b = 4 ∨ (b = 1 ∧ a = true))) ∨
      (InputEvent.mouseDown 4 false 0 0) = .keyDown "Alt") ∧
    (engineStep ratSqrt 800 600 idleSt (.mouseDown 4 false 0 0)).isPanning = true :=
  ⟨panning_entry_characterization ratSqrt 800 600 idleSt _ rfl, by decide⟩

/-- C10: a pointer move while dragging node `i` (and not panning) sets that
node's position to exactly the cursor's world coordinate
`(screen − translate) / scale` and zeroes its velocity, with no boundary
clamping; in particular a dragged node can sit outside
`[20, width−20] × [20, height−20]` and stay there across any number of ticks
while it remains pinned. -/
theorem drag_sets_world_position (s : ℚ → ℚ) (w h : ℚ) (st : EngineState) (i : ℕ)
    (sx sy : ℚ) (hpan : st.isPanning = false) (hdrag : st.isDragging = true)
    (hnode : st.dragNode = some i) (olds : ProcessedNode)
    (hold : st.nodes.get? i = some olds) :
    ((engineStep s w h st (.mouseMove sx sy)).nodes.get? i =
      some { olds with x := (sx - st.transform.translateX) / st.transform.scale,
                       y := (sy - st.transform.translateY) / st.transform.scale,
                       vx := 0, vy := 0 }) ∧
    (∃ n : ProcessedNode,
      (engineStep ratSqrt 800 600 dragSt (.mouseMove (-100) (-100))).nodes.get? 0 = some n ∧
      n.x < 20 ∧
      ∀ ds : List (Option ℕ), (∀ d ∈ ds, d = some 0) →
        (simSteps ratSqrt 800 600 dragSt.links ds
          ((engineStep ratSqrt 800 600 dragSt (.mouseMove (-100) (-100))).nodes)).get? 0
          = some n) := by
  constructor
  · have hlen : i < st.nodes.length := (List.get?_eq_some.mp hold).1
    show (handleMouseMoveE s st sx sy).nodes.get? i = _
    simp only [handleMouseMoveE, hpan, hdrag, hnode]
    simp only [Bool.false_eq_true, if_false, if_true, dragMoveNodes, hold]
    exact List.get?_set_eq_of_lt _ hlen
  · refine ⟨{ hA with x := -100, y := -100, vx := 0, vy := 0 }, by decide, by decide, ?_⟩
    intro ds hds
    rw [simSteps_get?_pinned ratSqrt 800 600 dragSt.links 0 ds _ hds]
    decide

/-- C10 witness: dragging node 0 of the demo state to screen point
`(−100, −100)` under the identity transform places it at world `(−100, −100)`
with zero velocity. -/
theorem drag_sets_world_position_witness :
    (engineStep ratSqrt 800 600 dragSt (.mouseMove (-100) (-100))).nodes.get? 0 =
      some { hA with x := ((-100) - dragSt.transform.translateX) / dragSt.transform.scale,
                     y := ((-100) - dragSt.transform.translateY) / dragSt.transform.scale,
                     vx := 0, vy := 0 } :=
  (drag_sets_world_position ratSqrt 800 600 dragSt 0 (-100) (-100) rfl rfl rfl hA
    (by decide)).1

/-- C4: the data-processing effect re-runs on a dimensions change and rebuilds
every node from the viewport center with fresh jitter: with identical graph
input and an identical random stream, resizing 800×600 → 900×600 moves the
sole existing node from `(400, 300)` to `(450, 300)`. -/
theorem resize_rebuild_moves_existing_node :
    ((processGraphData ⟨[nodeA], []⟩ 800 600 halfRand).nodes.get? 0).map (fun n => (n.x, n.y))
      = some ((400 : ℚ), (300 : ℚ)) ∧
    ((processGraphData ⟨[nodeA], []⟩ 900 600 halfRand).nodes.get? 0).map (fun n => (n.x, n.y))
      = some ((450 : ℚ), (300 : ℚ)) ∧
    ((400 : ℚ), (300 : ℚ)) ≠ ((450 : ℚ), (300 : ℚ)) := by
  refine ⟨by decide, by decide, by decide⟩

end GutenbergGraph
